import Mathlib

/-!
Verification development for the firmirror storage abstraction
(`pkg/firmirror`: `storage.go`, `storage_local.go`, `storage_s3.go`).

Go strings are embedded as lists of characters, blobs as lists of byte
values, and each backend's backing store as a map from keys to blobs.
Go error values produced by the package (`fmt.Errorf` with and without a
wrapped `%w` cause) are embedded as an inductive type so that a wrapped
generic error is distinguishable from any classified outcome.
External collaborators (the filesystem, the S3 client) are modelled as
oracles: their observable results are passed in as explicit arguments.
-/

namespace Firmirror

/-- A Go string, embedded as its list of characters. -/
abbrev Str : Type := List Char

/-- A blob: an ordered sequence of byte values. -/
abbrev Blob : Type := List Nat

/-- A Go error value as this package produces and receives them.
`errorf m` embeds `fmt.Errorf(m)` with no wrapped cause; `wrap m e` embeds
`fmt.Errorf(m + ": %w", e)`.  The remaining constructors embed the
backing-store error conditions the package inspects: `fsNotExist` is an
`os` error for which `os.IsNotExist` holds, `fsOther` any other
filesystem error, `s3NotFound` the `types.NotFound` error matched by
`errors.As` in `Exists`, `s3NoSuchKey` the download error for a missing
object, and `s3Other` any other S3 client error. -/
inductive GoErr : Type
  | errorf (msg : Str)
  | wrap (msg : Str) (cause : GoErr)
  | fsNotExist
  | fsOther
  | s3NotFound
  | s3NoSuchKey
  | s3Other
  deriving DecidableEq, Repr

/-- Whether an error is a generic `fmt.Errorf("...: %w", err)` wrapper
around a backend cause (as opposed to a classified outcome). -/
def GoErr.isWrap : GoErr → Bool
  | .wrap _ _ => true
  | _ => false

/-- `errors.As(err, &types.NotFound)`: walks the wrap chain looking for
the S3 not-found error type. -/
def GoErr.asNotFound : GoErr → Bool
  | .s3NotFound => true
  | .wrap _ e => e.asNotFound
  | _ => false

/- The literal message strings of the Go source. -/

def msgOpenFile : Str := "failed to open file".toList

def msgStatFile : Str := "failed to stat file".toList

def msgReadData : Str := "failed to read data".toList

def msgUpload : Str := "failed to upload to S3".toList

def msgDownload : Str := "failed to download from S3".toList

def msgCheckExistence : Str := "failed to check object existence".toList

def msgListObjects : Str := "failed to list objects".toList

def msgBucketRequired : Str := "bucket name is required".toList

def msgLoadConfig : Str := "failed to load AWS config".toList

def msgAccessBucket : Str := "failed to access bucket".toList

/-! ## Local backend (`storage_local.go`)

The filesystem under the base directory is modelled as a map from keys
to blobs (`FS`).  `LocalStorage` resolves every key against the same
fixed base path, so the map is keyed directly by the logical key. -/

/-- The filesystem under the base directory, as a key-to-bytes map. -/
abbrev FS : Type := Str → Option Blob

/-- `LocalStorage.Write`: `os.Create` truncates any existing file and
`io.Copy` writes the drained stream contents, so the blob at `key` is
replaced wholesale by `data`. -/
def localWrite (fs : FS) (key : Str) (data : Blob) : FS :=
  fun k => if k = key then some data else fs k

/-- `LocalStorage.Read`: `os.Open` on the resolved path; on a missing
file the open error (for which `os.IsNotExist` holds) is wrapped as
`fmt.Errorf("failed to open file: %w", err)` — no not-found
classification occurs. -/
def localRead (fs : FS) (key : Str) : Except GoErr Blob :=
  match fs key with
  | some b => Except.ok b
  | none => Except.error (GoErr.wrap msgOpenFile GoErr.fsNotExist)

/-- The observable outcome of `os.Stat` on the resolved path: the file
is found, the stat error satisfies `os.IsNotExist`, or the stat fails
for an unrelated reason (permission and the like). -/
inductive StatRes : Type
  | found
  | notExist
  | fault
  deriving DecidableEq, Repr

/-- A fault-free `os.Stat` against the modelled filesystem. -/
def osStat (fs : FS) (key : Str) : StatRes :=
  match fs key with
  | some _ => StatRes.found
  | none => StatRes.notExist

/-- `LocalStorage.Exists`: `os.IsNotExist` maps to `(false, nil)`, any
other stat error to `(false, wrapped error)`, success to `(true, nil)`. -/
def localExists : StatRes → Bool × Option GoErr
  | StatRes.notExist => (false, none)
  | StatRes.fault => (false, some (GoErr.wrap msgStatFile GoErr.fsOther))
  | StatRes.found => (true, none)

/-! ## Remote backend (`storage_s3.go`) -/

/-- `S3Storage`: the configuration state relevant to key handling —
the bucket and the optional namespace segment (`prefix` in the Go
source; named `pfx` here). -/
structure S3Storage : Type where
  bucket : Str
  pfx : Str
  deriving DecidableEq, Repr

/-- The contents of the bucket: a map from full object keys to blobs. -/
abbrev S3State : Type := Str → Option Blob

/-- `S3Storage.buildKey`: `prefix + "/" + key` when a prefix is
configured, else the key unchanged. -/
def buildKey (p key : Str) : Str :=
  if p ≠ [] then p ++ '/' :: key else key

/-- The per-object decomposition inside `S3Storage.List`:
`if s.prefix != "" && len(key) > len(s.prefix)+1 { key = key[len(s.prefix)+1:] }`. -/
def stripKey (p raw : Str) : Str :=
  if p ≠ [] ∧ p.length + 1 < raw.length then raw.drop (p.length + 1) else raw

/-- The observable actions of `NewS3Storage` after the bucket-name
check: loading the AWS config and probing the bucket with `HeadBucket`. -/
inductive S3InitAction : Type
  | loadConfig
  | headBucket
  deriving DecidableEq, Repr

/-- `NewS3Storage`: an empty bucket name fails immediately; otherwise
the config is loaded (`cfgFault` is its fault oracle) and the bucket is
probed (`headFault`).  The second component records which external
actions were attempted, in order. -/
def newS3Storage (bucket pfx : Str) (cfgFault headFault : Option GoErr) :
    Except GoErr S3Storage × List S3InitAction :=
  if bucket = [] then
    (Except.error (GoErr.errorf msgBucketRequired), [])
  else
    match cfgFault with
    | some e => (Except.error (GoErr.wrap msgLoadConfig e), [S3InitAction.loadConfig])
    | none =>
      match headFault with
      | some e =>
        (Except.error (GoErr.wrap msgAccessBucket e),
          [S3InitAction.loadConfig, S3InitAction.headBucket])
      | none =>
        (Except.ok ⟨bucket, pfx⟩,
          [S3InitAction.loadConfig, S3InitAction.headBucket])

/-- The outcome of `S3Storage.Write`: the resulting bucket contents,
the returned error if any, and whether an upload request was issued. -/
structure S3WriteOut : Type where
  state : S3State
  err : Option GoErr
  uploadAttempted : Bool

/-- `S3Storage.Write`: `io.ReadAll` fully materializes the source stream
(`data` is its outcome) before `uploader.Upload` is called; a source
read error is wrapped and returned with no upload attempted.
`uploadFault` is the upload's fault oracle. -/
def s3Write (s : S3Storage) (st : S3State) (key : Str)
    (data : Except GoErr Blob) (uploadFault : Option GoErr) : S3WriteOut :=
  match data with
  | Except.error e => ⟨st, some (GoErr.wrap msgReadData e), false⟩
  | Except.ok buf =>
    match uploadFault with
    | some e => ⟨st, some (GoErr.wrap msgUpload e), true⟩
    | none =>
      ⟨fun k => if k = buildKey s.pfx key then some buf else st k, none, true⟩

/-- The S3 download used by `Read`: a missing object yields the client's
no-such-key error, a present object yields its bytes. -/
def s3Download (st : S3State) (key : Str) : Except GoErr Blob :=
  match st key with
  | some b => Except.ok b
  | none => Except.error GoErr.s3NoSuchKey

/-- `S3Storage.Read`: downloads the full object at the built key; any
download error — including the missing-object one — is wrapped as
`fmt.Errorf("failed to download from S3: %w", err)` with no not-found
classification. -/
def s3Read (s : S3Storage) (st : S3State) (key : Str) : Except GoErr Blob :=
  match s3Download st (buildKey s.pfx key) with
  | Except.ok buf => Except.ok buf
  | Except.error e => Except.error (GoErr.wrap msgDownload e)

/-- The metadata probe used by `Exists` (`HeadObject`): a present object
succeeds, a missing one yields the `types.NotFound` error. -/
def headObject (st : S3State) (key : Str) : Except GoErr Unit :=
  match st key with
  | some _ => Except.ok ()
  | none => Except.error GoErr.s3NotFound

/-- `S3Storage.Exists`: a head error matched as `types.NotFound` by
`errors.As` maps to `(false, nil)`; any other error to
`(false, wrapped)`; success to `(true, nil)`. -/
def s3Exists (r : Except GoErr Unit) : Bool × Option GoErr :=
  match r with
  | Except.ok _ => (true, none)
  | Except.error e =>
    if e.asNotFound then (false, none)
    else (false, some (GoErr.wrap msgCheckExistence e))

/-- The `Prefix` field of the `ListObjectsV2` request issued by `List`:
the caller's prefix run through `buildKey`. -/
def s3ListRequest (s : S3Storage) (p : Str) : Str := buildKey s.pfx p

/-- The paging loop of `S3Storage.List`.  Each element of `pages` is one
`paginator.NextPage` outcome: an error, or a page of objects whose keys
may be nil (`none`).  A page error fails the whole call; otherwise each
non-nil key is stripped with `stripKey` and accumulated. -/
def s3ListLoop (p : Str) (acc : List Str) :
    List (Except GoErr (List (Option Str))) → Except GoErr (List Str)
  | [] => Except.ok acc
  | Except.error e :: _ => Except.error (GoErr.wrap msgListObjects e)
  | Except.ok objs :: rest =>
    s3ListLoop p (acc ++ (objs.filterMap id).map (fun raw => stripKey p raw)) rest

/-- `S3Storage.List`: pages through the results for the request prefix
`s3ListRequest s p`, stripping the namespace segment from each returned
key.  The pages are the server's responses, supplied as an oracle. -/
def s3List (s : S3Storage) (p : Str)
    (pages : List (Except GoErr (List (Option Str)))) : Except GoErr (List Str) :=
  s3ListLoop s.pfx [] pages

/-! ## Theorems -/

/-- Claim C3: round-trip — for every key `k` and byte sequence `b`,
`Write(k, b)` followed by draining the stream returned by `Read(k)`
yields exactly `b`, over the local backend with the filesystem modelled
as a key-to-bytes map. -/
theorem c3_roundtrip (fs : FS) (k : Str) (b : Blob) :
    localRead (localWrite fs k b) k = Except.ok b := by
  simp [localRead, localWrite]

/-- Claim C4: overwrite replaces wholesale — `Write(k, b1)` then
`Write(k, b2)` then `Read(k)` yields exactly `b2`, with no residue of
`b1`, for all blobs including a shorter `b2` (`os.Create` truncates). -/
theorem c4_overwrite (fs : FS) (k : Str) (b1 b2 : Blob) :
    localRead (localWrite (localWrite fs k b1) k b2) k = Except.ok b2 := by
  simp [localRead, localWrite]

/-- Claim C8: `NewS3Storage` with an empty bucket name always fails with
the construction error and produces no backend instance, and neither the
config load nor the bucket probe is attempted (the action log is empty),
whatever the oracles would have answered. -/
theorem c8_empty_bucket (pfx : Str) (cfgFault headFault : Option GoErr) :
    newS3Storage [] pfx cfgFault headFault =
      (Except.error (GoErr.errorf msgBucketRequired), []) := by
  simp [newS3Storage]

/-- Claim C10: the remote `Write` fully reads the source stream before
any upload; if the source read fails, `Write` returns the wrapped read
error, no upload is attempted, and the bucket contents are unchanged. -/
theorem c10_write_source_error (s : S3Storage) (st : S3State) (k : Str)
    (e : GoErr) (uploadFault : Option GoErr) :
    s3Write s st k (Except.error e) uploadFault =
      ⟨st, some (GoErr.wrap msgReadData e), false⟩ := by
  simp [s3Write]

/-- Claim C7: key composition in the remote backend — the full object
key equals `prefix ++ "/" ++ key` when a prefix is configured and `key`
unchanged otherwise; `Write` stores at that key, `Read` and `Exists`
find what `Write` stored there, `List` requests under it; with prefix
`"builds"`, `Write("42/log.txt", b)` stores at `"builds/42/log.txt"`. -/
theorem c7_key_composition :
    (∀ p k : Str, p ≠ [] → buildKey p k = p ++ '/' :: k) ∧
    (∀ k : Str, buildKey [] k = k) ∧
    (∀ (s : S3Storage) (st : S3State) (k : Str) (b : Blob),
      (s3Write s st k (Except.ok b) none).state (buildKey s.pfx k) = some b) ∧
    (∀ (s : S3Storage) (st : S3State) (k : Str) (b : Blob),
      s3Read s (s3Write s st k (Except.ok b) none).state k = Except.ok b) ∧
    (∀ (s : S3Storage) (st : S3State) (k : Str) (b : Blob),
      s3Exists (headObject (s3Write s st k (Except.ok b) none).state
        (buildKey s.pfx k)) = (true, none)) ∧
    (∀ (s : S3Storage) (p : Str), s3ListRequest s p = buildKey s.pfx p) ∧
    (s3Write ⟨"artifacts".toList, "builds".toList⟩ (fun _ => none)
        ("42/log.txt".toList) (Except.ok [1, 2, 3]) none).state
      ("builds/42/log.txt".toList) = some [1, 2, 3] := by
  refine ⟨?_, ?_, ?_, ?_, ?_, ?_, ?_⟩
  · intro p k hp
    simp [buildKey, hp]
  · intro k
    simp [buildKey]
  · intro s st k b
    simp [s3Write]
  · intro s st k b
    simp [s3Read, s3Write, s3Download]
  · intro s st k b
    simp [s3Write, headObject, s3Exists]
  · intro s p
    rfl
  · simp [s3Write, buildKey]

/-- Claim C7 witness: the composition equation at the concrete prefix
`"builds"` and key `"42/log.txt"`. -/
theorem c7_key_composition_witness :
    buildKey ("builds".toList) ("42/log.txt".toList) = "builds/42/log.txt".toList := by
  rw [c7_key_composition.1 ("builds".toList) ("42/log.txt".toList) (by decide)]
  decide

/-- Claim C6: absence is not an error for `Exists` — on both backends an
absent key yields `(false, nil)`, a present key `(true, nil)`, and an
error is returned only for faults unrelated to absence (a stat fault on
the local backend, a head error not classified as not-found on the
remote one). -/
theorem c6_exists_absence :
    (∀ (fs : FS) (k : Str), fs k = none →
      localExists (osStat fs k) = (false, none)) ∧
    (∀ (fs : FS) (k : Str) (b : Blob), fs k = some b →
      localExists (osStat fs k) = (true, none)) ∧
    (∀ r : StatRes, (localExists r).2 ≠ none → r = StatRes.fault) ∧
    (∀ (s : S3Storage) (st : S3State) (k : Str), st (buildKey s.pfx k) = none →
      s3Exists (headObject st (buildKey s.pfx k)) = (false, none)) ∧
    (∀ (s : S3Storage) (st : S3State) (k : Str) (b : Blob),
      st (buildKey s.pfx k) = some b →
      s3Exists (headObject st (buildKey s.pfx k)) = (true, none)) ∧
    (∀ e : GoErr, (s3Exists (Except.error e)).2 ≠ none → e.asNotFound = false) := by
  refine ⟨?_, ?_, ?_, ?_, ?_, ?_⟩
  · intro fs k h
    simp [osStat, h, localExists]
  · intro fs k b h
    simp [osStat, h, localExists]
  · intro r h
    cases r <;> simp [localExists] at h ⊢
  · intro s st k h
    simp [headObject, h, s3Exists, GoErr.asNotFound]
  · intro s st k b h
    simp [headObject, h, s3Exists]
  · intro e h
    by_contra hne
    simp at hne
    simp [s3Exists, hne] at h

/-- Claim C6 witness: the absent and present cases at a concrete key on
both backends. -/
theorem c6_exists_absence_witness :
    localExists (osStat (fun _ => none) ("k".toList)) = (false, none) ∧
    s3Exists (headObject
        (fun o => if o = buildKey ("ns".toList) ("k".toList) then some [7] else none)
        (buildKey ("ns".toList) ("k".toList))) = (true, none) :=
  ⟨c6_exists_absence.1 (fun _ => none) ("k".toList) rfl,
   c6_exists_absence.2.2.2.2.1 ⟨"b".toList, "ns".toList⟩
     (fun o => if o = buildKey ("ns".toList) ("k".toList) then some [7] else none)
     ("k".toList) [7] (by simp)⟩

/-- Claim C5 counterexample: on both backends, `Read` of a never-written
key returns the generic wrapping error built by `fmt.Errorf` — not a
distinguished not-found outcome: the returned error satisfies `isWrap`,
i.e. it is exactly the "wrapped as a generic read failure" shape the
claim rules out. -/
theorem c5_counterexample :
    localRead (fun _ => none) ("report.json".toList) =
      Except.error (GoErr.wrap msgOpenFile GoErr.fsNotExist) ∧
    (GoErr.wrap msgOpenFile GoErr.fsNotExist).isWrap = true ∧
    s3Read ⟨"b".toList, "ns".toList⟩ (fun _ => none) ("k".toList) =
      Except.error (GoErr.wrap msgDownload GoErr.s3NoSuchKey) ∧
    (GoErr.wrap msgDownload GoErr.s3NoSuchKey).isWrap = true :=
  ⟨rfl, rfl, rfl, rfl⟩

/-- Claim C5 amended: `Read` of a never-written key fails on both
backends with a generic wrapping error whose wrapped cause is the
backing store's not-found condition; neither `Read` classifies it into a
distinguished not-found outcome (only `Exists` classifies). -/
theorem c5_read_missing_wraps (fs : FS) (k : Str) (s : S3Storage)
    (st : S3State) (k2 : Str) (h1 : fs k = none)
    (h2 : st (buildKey s.pfx k2) = none) :
    localRead fs k = Except.error (GoErr.wrap msgOpenFile GoErr.fsNotExist) ∧
    (GoErr.wrap msgOpenFile GoErr.fsNotExist).isWrap = true ∧
    s3Read s st k2 = Except.error (GoErr.wrap msgDownload GoErr.s3NoSuchKey) ∧
    (GoErr.wrap msgDownload GoErr.s3NoSuchKey).isWrap = true := by
  refine ⟨?_, rfl, ?_, rfl⟩
  · simp [localRead, h1]
  · simp [s3Read, s3Download, h2]

/-- Claim C5 amended witness: the amended statement at the empty
filesystem and empty bucket with concrete keys. -/
theorem c5_read_missing_wraps_witness :
    localRead (fun _ => none) ("report.json".toList) =
      Except.error (GoErr.wrap msgOpenFile GoErr.fsNotExist) :=
  (c5_read_missing_wraps (fun _ => none) ("report.json".toList)
    ⟨"b".toList, "ns".toList⟩ (fun _ => none) ("k".toList) rfl rfl).1

/-- Every key in a successful `s3ListLoop` result is either carried in
from the accumulator or is `stripKey` of some non-nil raw object key
found on a successful page. -/
theorem s3ListLoop_mem_ok (p : Str) (pages : List (Except GoErr (List (Option Str)))) :
    ∀ acc ks : List Str, s3ListLoop p acc pages = Except.ok ks → ∀ k ∈ ks,
      k ∈ acc ∨ ∃ raw objs, Except.ok objs ∈ pages ∧ some raw ∈ objs ∧
        k = stripKey p raw := by
  induction pages with
  | nil =>
    intro acc ks h k hk
    simp only [s3ListLoop, Except.ok.injEq] at h
    exact Or.inl (h ▸ hk)
  | cons page rest ih =>
    intro acc ks h k hk
    cases page with
    | error e => simp [s3ListLoop] at h
    | ok objs =>
      simp only [s3ListLoop] at h
      rcases ih _ ks h k hk with hin | ⟨raw, objs2, hmem, hraw, hkeq⟩
      · rcases List.mem_append.mp hin with h1 | h2
        · exact Or.inl h1
        · rcases List.mem_map.mp h2 with ⟨raw, hraw, hkeq⟩
          rcases List.mem_filterMap.mp hraw with ⟨a, ha, hid⟩
          simp only [id] at hid
          subst hid
          exact Or.inr ⟨raw, objs, List.mem_cons_self _ _, ha, hkeq.symm⟩
      · exact Or.inr ⟨raw, objs2, List.mem_cons_of_mem _ hmem, hraw, hkeq⟩

/-- When every page succeeds, `s3ListLoop` returns the accumulator
followed by every page's non-nil keys, each stripped. -/
theorem s3ListLoop_all_ok (p : Str) (okpages : List (List (Option Str))) :
    ∀ acc : List Str, s3ListLoop p acc (okpages.map Except.ok) =
      Except.ok (acc ++ okpages.flatMap fun objs =>
        (objs.filterMap id).map fun raw => stripKey p raw) := by
  induction okpages with
  | nil => intro acc; simp [s3ListLoop]
  | cons objs rest ih =>
    intro acc
    simp only [List.map_cons, s3ListLoop, ih, List.flatMap_cons, List.append_assoc]

/-- A page error anywhere makes `s3ListLoop` fail as a whole. -/
theorem s3ListLoop_has_error (p : Str) (pages : List (Except GoErr (List (Option Str)))) :
    ∀ acc : List Str, (∃ x ∈ pages, ∃ e, x = Except.error e) →
      ∃ e2, s3ListLoop p acc pages = Except.error e2 := by
  induction pages with
  | nil =>
    intro acc h
    simp at h
  | cons page rest ih =>
    intro acc h
    cases page with
    | error e => exact ⟨GoErr.wrap msgListObjects e, rfl⟩
    | ok objs =>
      simp only [s3ListLoop]
      apply ih
      rcases h with ⟨x, hx, e, hxe⟩
      subst hxe
      rcases List.mem_cons.mp hx with h1 | h2
      · simp at h1
      · exact ⟨Except.error e, h2, e, rfl⟩

/-- Claim C1 counterexample: the inverse fails at the empty logical key.
Under prefix `"ns"`, the empty key is stored at object key `"ns/"`, but
stripping that stored key returns `"ns/"` unchanged (the strip condition
requires the raw key to be strictly longer than `len(prefix)+1`), not
the empty key that was written. -/
theorem c1_counterexample :
    buildKey ("ns".toList) [] = "ns/".toList ∧
    stripKey ("ns".toList) ("ns/".toList) = "ns/".toList ∧
    "ns/".toList ≠ ([] : Str) := by
  decide

/-- Claim C1 amended: for every non-empty configured prefix `p` and
every non-empty logical key `k`, stripping the stored object key
`p ++ "/" ++ k` reproduces exactly `k`, and `List` over a page holding
that stored key returns `[k]`; for the empty key the stored key
`p ++ "/"` is returned unchanged instead. -/
theorem c1_strip_inverts_build (p k : Str) (hp : p ≠ []) (hk : k ≠ []) :
    stripKey p (buildKey p k) = k ∧
    s3List ⟨"artifacts".toList, p⟩ k [Except.ok [some (buildKey p k)]] =
      Except.ok [k] ∧
    stripKey p (buildKey p []) = buildKey p [] := by
  have hb : buildKey p k = (p ++ ['/']) ++ k := by
    simp [buildKey, hp]
  have hlen : p.length + 1 < ((p ++ ['/']) ++ k).length := by
    have : 0 < k.length := List.length_pos.mpr hk
    simp [List.length_append]
    omega
  have hlp : (p ++ ['/']).length = p.length + 1 := by simp
  have hmain : stripKey p (buildKey p k) = k := by
    rw [hb, stripKey, if_pos ⟨hp, hlen⟩, ← hlp, List.drop_left]
  refine ⟨hmain, ?_, ?_⟩
  · show s3ListLoop p [] [Except.ok [some (buildKey p k)]] = Except.ok [k]
    simp [s3ListLoop, hmain]
  · have hb0 : buildKey p [] = p ++ ['/'] := by simp [buildKey, hp]
    rw [hb0, stripKey, if_neg]
    rintro ⟨-, hlt⟩
    simp at hlt

/-- Claim C1 amended witness: prefix `"ns"`, key `"a"` — the stored key
`"ns/a"` strips back to `"a"`. -/
theorem c1_strip_inverts_build_witness :
    stripKey ("ns".toList) (buildKey ("ns".toList) ("a".toList)) = "a".toList :=
  (c1_strip_inverts_build ("ns".toList) ("a".toList) (by decide) (by decide)).1

/-- Claim C2 counterexample: a raw object key of length exactly
`len(prefix)+1` is not stripped. With prefix `"ns"`, the raw key `"ns/"`
has length `3 = len("ns")+1`; the claim says it is stripped to the empty
string, but `List` returns it unchanged, as does the underlying strip
step. -/
theorem c2_counterexample :
    ("ns/".toList).length = ("ns".toList).length + 1 ∧
    stripKey ("ns".toList) ("ns/".toList) = "ns/".toList ∧
    ("ns/".toList).drop (("ns".toList).length + 1) = ([] : Str) ∧
    "ns/".toList ≠ ([] : Str) ∧
    s3ListLoop ("ns".toList) [] [Except.ok [some ("ns/".toList)]] =
      Except.ok ["ns/".toList] := by
  exact ⟨by decide, by decide, by decide, by decide, rfl⟩

/-- Claim C2 amended: with a non-empty configured prefix, every key
returned by a successful `List` call comes from a non-nil raw object key
on a successful page, and equals that raw key with its first
`len(prefix)+1` characters removed when the raw key is strictly longer
than `len(prefix)+1`; raw keys of length at most `len(prefix)+1`
(including exactly `len(prefix)+1`) are returned unchanged. -/
theorem c2_list_strip_boundary (bucket p q : Str) (hp : p ≠ [])
    (pages : List (Except GoErr (List (Option Str)))) (ks : List Str)
    (h : s3List ⟨bucket, p⟩ q pages = Except.ok ks) (k : Str) (hk : k ∈ ks) :
    ∃ raw objs, Except.ok objs ∈ pages ∧ some raw ∈ objs ∧
      (p.length + 1 < raw.length → k = raw.drop (p.length + 1)) ∧
      (raw.length ≤ p.length + 1 → k = raw) := by
  have h2 : s3ListLoop p [] pages = Except.ok ks := h
  rcases s3ListLoop_mem_ok p pages [] ks h2 k hk with hin | ⟨raw, objs, hmem, hraw, hkeq⟩
  · simp at hin
  · refine ⟨raw, objs, hmem, hraw, ?_, ?_⟩
    · intro hlen
      rw [hkeq, stripKey, if_pos ⟨hp, hlen⟩]
    · intro hlen
      rw [hkeq, stripKey, if_neg]
      rintro ⟨-, hlt⟩
      omega

/-- Claim C2 amended witness: one page holding raw keys `"ns/ab"`
(strictly longer than `len("ns")+1`, stripped to `"ab"`) yields a list
whose member `"ab"` comes from the raw key `"ns/ab"`. -/
theorem c2_list_strip_boundary_witness :
    ∃ (raw : Str) (objs : List (Option Str)),
      (Except.ok objs : Except GoErr (List (Option Str))) ∈
        [(Except.ok [some ("ns/ab".toList)] : Except GoErr (List (Option Str)))] ∧
      some raw ∈ objs ∧
      (("ns".toList).length + 1 < raw.length →
        "ab".toList = raw.drop (("ns".toList).length + 1)) ∧
      (raw.length ≤ ("ns".toList).length + 1 → "ab".toList = raw) :=
  c2_list_strip_boundary ("b".toList) ("ns".toList) [] (by decide)
    [Except.ok [some ("ns/ab".toList)]] ["ab".toList] rfl ("ab".toList)
    (List.mem_singleton.mpr rfl)

/-- Claim C9: `List` is all-or-nothing — a page error anywhere fails the
whole call with a wrapped error and no key sequence at all, and when
every page succeeds the call returns the fully materialized list of all
stripped non-nil keys from all pages. -/
theorem c9_list_all_or_nothing :
    (∀ (s : S3Storage) (q : Str) (pages : List (Except GoErr (List (Option Str)))),
      (∃ x ∈ pages, ∃ e, x = Except.error e) →
      ∃ e2, s3List s q pages = Except.error e2) ∧
    (∀ (s : S3Storage) (q : Str) (okpages : List (List (Option Str))),
      s3List s q (okpages.map Except.ok) =
        Except.ok (okpages.flatMap fun objs =>
          (objs.filterMap id).map fun raw => stripKey s.pfx raw)) := by
  constructor
  · intro s q pages h
    exact s3ListLoop_has_error s.pfx pages [] h
  · intro s q okpages
    have h := s3ListLoop_all_ok s.pfx okpages []
    simpa [s3List] using h

/-- Claim C9 witness: a single failing page makes the whole call fail. -/
theorem c9_list_all_or_nothing_witness :
    ∃ e2, s3List ⟨"b".toList, "ns".toList⟩ [] [Except.error GoErr.s3Other] =
      Except.error e2 :=
  c9_list_all_or_nothing.1 ⟨"b".toList, "ns".toList⟩ []
    [Except.error GoErr.s3Other]
    ⟨Except.error GoErr.s3Other, List.mem_singleton.mpr rfl, GoErr.s3Other, rfl⟩

end Firmirror
